import Mathlib

/-
Verification of the outlet chat-bot plugin host.

This file gives a shallow embedding of the core of the repository:
the argument-conversion pipeline of src/outlet/command.py, the built-in
converters of src/outlet/converters.py, the cooldown / permission
middleware of src/outlet/command.py, the command-handling portion of
Plugin.__on_message__ in src/outlet/plugin.py, the background-task
launcher Plugin.start_bg_tasks, and the per-plugin event fan-out loops
of DiscordBot in src/outlet/bot.py.

Python exceptions are modelled with Except over an explicit error type;
Python's float is modelled with the rationals; Python mutable state
(the cooldown map, the background-task list) is passed explicitly.
-/

set_option autoImplicit false

namespace Outlet

/-- The exception kinds the embedded code can raise.  The first five are the
CommandError hierarchy of src/outlet/errors.py (commandError is the generic
base class, the rest its subclasses used by the core); the last three model
the Python built-in exceptions that the embedded code paths can raise. -/
inductive Err
  | commandError
  | missingPermission
  | missingArguments
  | tooManyArguments
  | wrongType
  | indexError
  | attributeError
  | valueError
  deriving DecidableEq, Repr

/-- A guild member, as much of discord.py's Member as the core reads:
its numeric id (matched by mention) and its name#discriminator tag
(matched by get_member_named). -/
structure MemberV where
  uid : Nat
  tag : String
  deriving DecidableEq, Repr

/-- A guild: its id and member list.  Models the discord.py Guild object
as consumed by the core (get_member, get_member_named, id). -/
structure GuildV where
  gid : Nat
  members : List MemberV
  deriving DecidableEq, Repr

/-- discord.py Guild.get_member: look a member up by id. -/
def GuildV.get_member (g : GuildV) (i : Nat) : Option MemberV :=
  g.members.find? (fun m => m.uid == i)

/-- discord.py Guild.get_member_named: look a member up by its tag. -/
def GuildV.get_member_named (g : GuildV) (name : String) : Option MemberV :=
  g.members.find? (fun m => m.tag == name)

/-- The command Context of src/outlet/command.py, restricted to the fields
the embedded core reads: ctx.guild (message.guild, which is None for a
direct message) and the author's effective channel permissions
(ctx.author.permissions_in(ctx.channel), read via getattr with a False
default, hence a total boolean function of the permission name). -/
structure Ctx where
  guild : Option GuildV
  perms : String → Bool

/-- A context used to instantiate theorems at concrete inputs: a guild-less
(direct-message) context with no permissions. -/
def ctxEx : Ctx := ⟨none, fun _ => false⟩

/-- The values converters produce: raw strings, Python ints, Python floats
(modelled as rationals) and guild members. -/
inductive Value
  | str (s : String)
  | int (n : ℤ)
  | float (q : ℚ)
  | member (m : MemberV)
  deriving DecidableEq, Repr

/-- Numeric value of a list of decimal digit characters, most significant
first (the value Python's int()/float() assign to a digit run). -/
def digitsVal (l : List Char) : Nat :=
  l.foldl (fun a c => 10 * a + (c.toNat - 48)) 0

/-- All-digit check for a nonempty digit run, as used by int() parsing. -/
def digitsToNat? (l : List Char) : Option Nat :=
  if l ≠ [] ∧ l.all Char.isDigit then some (digitsVal l) else none

/-- Python int(s) on a string, modelled on the subset the command pipeline
meets: an optional sign followed by one or more ASCII decimal digits
(whitespace, underscores and non-ASCII digits are not modelled).
Returns none where int() raises ValueError. -/
def pyInt (s : String) : Option ℤ :=
  match s.data with
  | '-' :: r => (digitsToNat? r).map (fun n => -(n : ℤ))
  | '+' :: r => (digitsToNat? r).map (fun n => (n : ℤ))
  | r => (digitsToNat? r).map (fun n => (n : ℤ))

/-- Python float(s), modelled on the decimal subset: an optional sign, a
digit run, an optional point followed by a digit run, at least one digit
in total (exponents, inf and nan are not modelled).  Returns none where
float() raises ValueError. -/
def pyFloat (s : String) : Option ℚ :=
  let signAndRest : Bool × List Char :=
    match s.data with
    | '-' :: r => (true, r)
    | '+' :: r => (false, r)
    | r => (false, r)
  let neg := signAndRest.1
  let l := signAndRest.2
  let ip := l.takeWhile Char.isDigit
  let rest := l.dropWhile Char.isDigit
  match rest with
  | [] =>
    if ip ≠ [] then some (cond neg (-(digitsVal ip : ℚ)) (digitsVal ip : ℚ)) else none
  | '.' :: fr =>
    if (ip ≠ [] ∨ fr ≠ []) ∧ fr.all Char.isDigit then
      let q : ℚ := (digitsVal ip : ℚ) + (digitsVal fr : ℚ) / ((10 : ℚ) ^ fr.length)
      some (cond neg (-q) q)
    else none
  | _ => none

/-- The mention regular expression of src/outlet/converters.py, matched at
the start of the string as re.match does (a trailing remainder is allowed):
a left angle bracket, an at sign, an optional exclamation mark, one or more
digits (the captured group, returned as a number), a right angle bracket. -/
def mentionMatch (s : String) : Option Nat :=
  match s.data with
  | '<' :: '@' :: r =>
    let r2 := match r with
      | '!' :: r3 => r3
      | _ => r
    let ds := r2.takeWhile Char.isDigit
    let rest := r2.dropWhile Char.isDigit
    match ds, rest with
    | _ :: _, '>' :: _ => some (digitsVal ds)
    | _, _ => none
  | _ => none

/-- The username regular expression of src/outlet/converters.py (one or more
arbitrary non-newline characters, a hash sign, four digits), matched at the
start of the string as re.match does: some position i at least 1 holds the
hash sign, everything before it is newline-free, and four digits follow. -/
def usernameMatch (s : String) : Bool :=
  (List.range s.data.length).any (fun i =>
    decide (0 < i)
      && (s.data.getD i ' ' == '#')
      && (s.data.take i).all (fun c => !(c == '\n'))
      && (((s.data.drop (i + 1)).take 4).length == 4)
      && ((s.data.drop (i + 1)).take 4).all Char.isDigit)

/-- String.convert of src/outlet/converters.py: returns the raw value. -/
def stringConvert (value : String) (_ctx : Ctx) : Except Err Value :=
  .ok (.str value)

/-- Number.convert of src/outlet/converters.py: float(value) if the token
contains a point, int(value) otherwise; a ValueError from either parse is
turned into WrongType. -/
def numberConvert (value : String) (_ctx : Ctx) : Except Err Value :=
  if value.data.contains '.' then
    match pyFloat value with
    | some q => .ok (.float q)
    | none => .error .wrongType
  else
    match pyInt value with
    | some n => .ok (.int n)
    | none => .error .wrongType

/-- Member.convert of src/outlet/converters.py: try the mention pattern and
the username pattern; if neither matches, WrongType; otherwise resolve the
member through ctx.guild.  When ctx.guild is None (a direct message), the
attribute access ctx.guild.get_member raises AttributeError, which the
embedding records as Err.attributeError. -/
def memberConvert (value : String) (ctx : Ctx) : Except Err Value :=
  let user_id := mentionMatch value
  let user_tag := usernameMatch value
  if user_id = none ∧ user_tag = false then .error .wrongType
  else
    match user_id with
    | some i =>
      match ctx.guild with
      | none => .error .attributeError
      | some g =>
        match g.get_member i with
        | none => .error .wrongType
        | some m => .ok (.member m)
    | none =>
      match ctx.guild with
      | none => .error .attributeError
      | some g =>
        match g.get_member_named value with
        | none => .error .wrongType
        | some m => .ok (.member m)

/-- The built-in converters of src/outlet/converters.py. -/
inductive Conv
  | string
  | number
  | member
  deriving DecidableEq, Repr

/-- Dispatch a converter on a raw token and a context. -/
def Conv.convert : Conv → String → Ctx → Except Err Value
  | .string, v, c => stringConvert v c
  | .number, v, c => numberConvert v c
  | .member, v, c => memberConvert v c

/-- A declared command parameter as convert_arguments sees it: its converter
(params i .annotation, already defaulted to the String converter when the
annotation is empty) and whether its kind is VAR_POSITIONAL. -/
structure Param where
  conv : Conv
  variadic : Bool
  deriving DecidableEq, Repr

/-- A plain non-variadic String-converted parameter. -/
def pStr : Param := ⟨Conv.string, false⟩

/-- params len minus one .kind == VAR_POSITIONAL of convert_arguments,
src/outlet/command.py: whether the last declared parameter is variadic
(False when there are no parameters). -/
def lastVariadic (ps : List Param) : Bool :=
  match ps.getLast? with
  | some p => p.variadic
  | none => false

/-- The while args 0 == empty loop of convert_arguments,
src/outlet/command.py: delete leading empty tokens; reading args 0 once the
list is exhausted raises IndexError.  Returns the first non-empty token and
the tokens after it. -/
def skipEmpties : List String → Except Err (String × List String)
  | [] => .error .indexError
  | a :: rest => if a = "" then skipEmpties rest else .ok (a, rest)

/-- The inner while len args gt zero loop of convert_arguments,
src/outlet/command.py: once a variadic parameter is reached, convert every
remaining token (empty or not) with its converter. -/
def convertRest (c : Conv) (ctx : Ctx) : List String → Except Err (List Value)
  | [] => .ok []
  | a :: rest => do
    let v ← c.convert a ctx
    let vs ← convertRest c ctx rest
    pure (v :: vs)

/-- The for i in range len params loop of convert_arguments,
src/outlet/command.py: break when the tokens run out; otherwise skip leading
empty tokens, convert the next token with the parameter's converter, and on
a variadic parameter convert all remaining tokens with the same converter
(further iterations then break on the empty token list). -/
def convLoop (ctx : Ctx) : List Param → List String → Except Err (List Value)
  | [], _ => .ok []
  | _ :: _, [] => .ok []
  | p :: ps, a :: rest => do
    let tr ← skipEmpties (a :: rest)
    let v ← p.conv.convert tr.1 ctx
    if p.variadic then do
      let vs ← convertRest p.conv ctx tr.2
      let vs2 ← convLoop ctx ps []
      pure (v :: vs ++ vs2)
    else do
      let vs ← convLoop ctx ps tr.2
      pure (v :: vs)

/-- convert_arguments of src/outlet/command.py.  A command with no declared
parameters returns the empty list at once (the len signature .parameters
== 2 early return).  Otherwise the minimum is the parameter count, less one
when the last parameter is variadic, and the maximum is the parameter count,
or 999 when variadic; the bounds are checked against the raw token list
before any empty tokens are dropped, then the conversion loop runs. -/
def convert_arguments (args : List String) (params : List Param) (ctx : Ctx) :
    Except Err (List Value) :=
  if params.isEmpty then .ok []
  else
    let hasVar := lastVariadic params
    let minArgs := if hasVar then params.length - 1 else params.length
    let maxArgs := if hasVar then 999 else params.length
    if args.length < minArgs then .error .missingArguments
    else if args.length > maxArgs then .error .tooManyArguments
    else convLoop ctx params args

/-- The binding-then-call step of real_command, src/outlet/command.py:
run convert_arguments; on failure the exception propagates and the handler
is not called, on success the handler is called with the converted values.
The boolean records whether the handler was invoked. -/
def invoke_command (params : List Param) (args : List String) (ctx : Ctx) :
    Except Err (List Value) × Bool :=
  match convert_arguments args params ctx with
  | .error e => (.error e, false)
  | .ok vs => (.ok vs, true)

/-- Python str.split with a one-character separator: adjacent separators and
a leading or trailing separator produce empty strings, and the empty string
splits into one empty string. -/
def splitChars (sep : Char) : List Char → List (List Char)
  | [] => [[]]
  | c :: rest =>
    let r := splitChars sep rest
    if c = sep then [] :: r
    else (c :: r.headD []) :: r.tail

/-- Python s.split(sep) for a one-character separator, on strings. -/
def pySplit (sep : Char) (s : String) : List String :=
  (splitChars sep s.data).map (fun l => String.mk l)

/-- real_command of src/outlet/command.py: split the prefix-stripped content
on single spaces, take the head as the command name and the remaining
(possibly empty) tokens as arguments; if the name is not one of the
command's names return silently (none), otherwise bind and invoke. -/
def real_command (names : List String) (params : List Param) (content : String)
    (ctx : Ctx) : Option (Except Err (List Value) × Bool) :=
  let parts := pySplit ' ' content
  let name := parts.headD ""
  let args := parts.tail
  if names.contains name then some (invoke_command params args ctx) else none

/-- The per-command cooldown map guild_calls of the cooldown decorator in
src/outlet/command.py: guild id to the timestamp of the last invocation
that passed the gate, with guild_calls.get(id, 0) defaulting to 0. -/
abbrev CState := Nat → ℤ

/-- A wrapped command body: given the cooldown state, the context and the
current time it yields the call's outcome, the cooldown state after the
call, and whether the underlying handler body ran. -/
abbrev Handler := CState → Ctx → ℤ → Except Err Unit × CState × Bool

/-- The innermost handler body, with a fixed outcome (ok, or raising some
exception); it leaves the cooldown state alone and records that it ran. -/
def baseHandler (res : Except Err Unit) : Handler :=
  fun st _ _ => (res, st, true)

/-- new_func of the cooldown decorator in src/outlet/command.py: reading
ctx.guild.id on a guild-less context raises AttributeError; if less than
seconds has elapsed since the recorded timestamp for the guild, raise the
generic CommandError; otherwise record the current time for the guild and
only then call the wrapped function. -/
def cooldownGate (seconds : ℤ) (inner : Handler) : Handler :=
  fun st ctx t =>
    match ctx.guild with
    | none => (.error .attributeError, st, false)
    | some g =>
      if t - st g.gid < seconds then (.error .commandError, st, false)
      else inner (fun x => if x = g.gid then t else st x) ctx t

/-- The for perm in permission loop of require_permissions in
src/outlet/command.py: the first required permission the author lacks. -/
def findMissing (required : List String) (has : String → Bool) : Option String :=
  match required with
  | [] => none
  | p :: ps => if has p then findMissing ps has else some p

/-- new_func of the require_permissions decorator in src/outlet/command.py:
raise MissingPermission at the first required permission the author lacks
(per-channel permissions, read from the context), without calling the
wrapped function; with all permissions present, call it. -/
def permGate (required : List String) (inner : Handler) : Handler :=
  fun st ctx t =>
    match findMissing required ctx.perms with
    | some _ => (.error .missingPermission, st, false)
    | none => inner st ctx t

/-- One directly-awaited fan-out loop of DiscordBot in src/outlet/bot.py
(for plugin in self.plugins: await plugin.on_reaction_add(...), and the
other event kinds dispatched the same way): each plugin's handler either
returns or raises, an uncaught exception propagates out of the loop.
Input: per-plugin handler outcomes in load order.  Output: a mask saying
which plugins' handlers ran, and the exception that escaped, if any. -/
def dispatchLoop : List (Except Err Unit) → List Bool × Option Err
  | [] => ([], none)
  | h :: rest =>
    match h with
    | .ok _ =>
      let r := dispatchLoop rest
      (true :: r.1, r.2)
    | .error e => (true :: rest.map (fun _ => false), some e)

/-- Whether a handler outcome is a normal return. -/
def isOk : Except Err Unit → Bool
  | .ok _ => true
  | .error _ => false

/-- The bot-side data the command-handling part of Plugin.__on_message__
reads: the configured prefix, the bot's own user identity, and the keys of
the plugin's command table. -/
structure BotM where
  pref : String
  userId : Nat
  table : List String
  deriving DecidableEq, Repr

/-- What the command-handling part of Plugin.__on_message__ did with one
message: whether the command table was consulted (the cmd in self.commands
test), and which command, if any, was invoked. -/
structure DispatchTrace where
  tableConsulted : Bool
  invokedCmd : Option String
  deriving DecidableEq, Repr

/-- Python s.startswith(pre). -/
def pyStartsWith (pre s : String) : Bool :=
  pre.data.isPrefixOf s.data

/-- Python s[n:], slicing by characters. -/
def pyDrop (n : Nat) (s : String) : String :=
  String.mk (s.data.drop n)

/-- The command-handling portion of Plugin.__on_message__ in
src/outlet/plugin.py: only messages that start with the prefix and are not
the bare prefix are considered; a message authored by the bot itself then
returns before the command table is consulted; otherwise the prefix is
stripped, the first space-separated word is looked up in the table, and a
hit invokes the command. -/
def on_message_command (bot : BotM) (authorId : Nat) (content : String) :
    DispatchTrace :=
  if pyStartsWith bot.pref content ∧ content ≠ bot.pref then
    if authorId = bot.userId then ⟨false, none⟩
    else
      let noPref := pyDrop bot.pref.data.length content
      let cmdName := (pySplit ' ' noPref).headD ""
      if bot.table.contains cmdName then ⟨true, some cmdName⟩ else ⟨true, none⟩
  else ⟨false, none⟩

/-- An element of the Plugin.bg_tasks list in src/outlet/plugin.py: either
a collected background-job function (callable) or an asyncio Task appended
by start_bg_tasks (not callable).  The id names the underlying job. -/
inductive BgItem
  | job (id : Nat)
  | task (id : Nat)
  deriving DecidableEq, Repr

/-- The outcome of the start_bg_tasks loop: a normal return or an escaping
TypeError (calling a Task object), in both cases together with the jobs
launched so far in order and the final bg_tasks list; fuelOut is reported
only when the step budget runs out. -/
inductive StartOutcome
  | ok (launched : List Nat) (final : List BgItem)
  | typeError (launched : List Nat) (final : List BgItem)
  | fuelOut
  deriving DecidableEq, Repr

/-- The for bg_task in self.bg_tasks loop of Plugin.start_bg_tasks in
src/outlet/plugin.py, with Python's index-based list iteration made
explicit: the loop appends to the very list it iterates, so the iterator
also reaches the appended elements.  A job function element is called and
the resulting task is appended to the list (the launch); a task element is
called as well, which raises TypeError. -/
def startLoop : Nat → Nat → List BgItem → List Nat → StartOutcome
  | 0, _, _, _ => .fuelOut
  | fuel + 1, i, l, launched =>
    match (l.drop i).head? with
    | some (.job j) => startLoop fuel (i + 1) (l ++ [.task j]) (launched ++ [j])
    | some (.task _) => .typeError launched l
    | none => .ok launched l

/-- Plugin.start_bg_tasks of src/outlet/plugin.py on a freshly collected
bg_tasks list (running_bg_tasks is empty on the first ready event, so the
cancellation loop does nothing).  The fuel covers one step per original
element plus the step that reaches the first appended task. -/
def start_bg_tasks (bg : List BgItem) : StartOutcome :=
  startLoop (bg.length + 1) 0 bg []

/-- A context sitting in the guild with the given id (no members, no
permissions), used to state the cooldown theorems. -/
def ctxOf (g : Nat) : Ctx :=
  ⟨some ⟨g, []⟩, fun _ => false⟩

/-- Spec-side definition, following the words of section 4.2 step 4 of the
spec: convert tokens left to right against parameter converters in order,
one token per parameter.  It is compared with the code-side convLoop in the
variadic-binding theorem. -/
def specConvPos (ctx : Ctx) : List Param → List String → Except Err (List Value)
  | [], _ => .ok []
  | _, [] => .ok []
  | p :: ps, a :: rest => do
    let v ← p.conv.convert a ctx
    let vs ← specConvPos ctx ps rest
    pure (v :: vs)

/-- Decidable equality of embedded computation results. -/
instance {ε α : Type} [DecidableEq ε] [DecidableEq α] : DecidableEq (Except ε α) := fun x y =>
  match x, y with
  | .ok a, .ok b =>
    if h : a = b then .isTrue (congrArg Except.ok h)
    else .isFalse (fun he => h (Except.ok.inj he))
  | .error e, .error f =>
    if h : e = f then .isTrue (congrArg Except.error h)
    else .isFalse (fun he => h (Except.error.inj he))
  | .ok _, .error _ => .isFalse (fun he => Except.noConfusion he)
  | .error _, .ok _ => .isFalse (fun he => Except.noConfusion he)

/-! Helper lemmas shared by the claim theorems. -/

/-- Bind on a successful Except computation. -/
theorem bindOk {α β : Type} (a : α) (f : α → Except Err β) :
    (Except.ok a : Except Err α) >>= f = f a := rfl

/-- Bind on a failed Except computation. -/
theorem bindError {α β : Type} (e : Err) (f : α → Except Err β) :
    (Except.error e : Except Err α) >>= f = Except.error e := rfl

/-- Map on a successful Except computation. -/
theorem mapOk {α β : Type} (a : α) (f : α → β) :
    f <$> (Except.ok a : Except Err α) = Except.ok (f a) := rfl

/-- Map on a failed Except computation. -/
theorem mapError {α β : Type} (e : Err) (f : α → β) :
    f <$> (Except.error e : Except Err α) = Except.error e := rfl

/-- Every built-in converter either returns a value, or raises WrongType, or
raises AttributeError (the member converter on a guild-less context). -/
theorem convert_result_cases (c : Conv) (v : String) (ctx : Ctx) :
    (∃ val, c.convert v ctx = .ok val) ∨ c.convert v ctx = .error .wrongType ∨
      c.convert v ctx = .error .attributeError := by
  cases c with
  | string => exact .inl ⟨.str v, rfl⟩
  | number =>
    simp only [Conv.convert, numberConvert]
    split
    · cases hf : pyFloat v with
      | none => simp [hf]
      | some q => exact .inl ⟨.float q, by simp [hf]⟩
    · cases hi : pyInt v with
      | none => simp [hi]
      | some n => exact .inl ⟨.int n, by simp [hi]⟩
  | member =>
    simp only [Conv.convert, memberConvert]
    split
    · simp
    · cases hm : mentionMatch v with
      | some i =>
        simp only [hm]
        cases hg : ctx.guild with
        | none => simp [hg]
        | some g =>
          simp only [hg]
          cases hgm : g.get_member i with
          | none => simp [hgm]
          | some m => exact .inl ⟨.member m, by simp [hgm]⟩
      | none =>
        simp only [hm]
        cases hg : ctx.guild with
        | none => simp [hg]
        | some g =>
          simp only [hg]
          cases hgm : g.get_member_named v with
          | none => simp [hgm]
          | some m => exact .inl ⟨.member m, by simp [hgm]⟩

/-- A converter never raises TooManyArguments. -/
theorem convert_ne_tooMany (c : Conv) (v : String) (ctx : Ctx) :
    c.convert v ctx ≠ .error .tooManyArguments := by
  rcases convert_result_cases c v ctx with ⟨val, h⟩ | h | h <;> simp [h]

/-- The empty-token skip either returns a head and tail or raises
IndexError. -/
theorem skipEmpties_cases (l : List String) :
    (∃ pr, skipEmpties l = .ok pr) ∨ skipEmpties l = .error .indexError := by
  induction l with
  | nil => exact .inr rfl
  | cons a rest ih =>
    by_cases ha : a = ""
    · simpa [skipEmpties, ha] using ih
    · exact .inl ⟨(a, rest), by simp [skipEmpties, ha]⟩

/-- The variadic tail conversion never raises TooManyArguments. -/
theorem convertRest_ne_tooMany (c : Conv) (ctx : Ctx) (l : List String) :
    convertRest c ctx l ≠ .error .tooManyArguments := by
  induction l with
  | nil => simp [convertRest]
  | cons a rest ih =>
    simp only [convertRest]
    rcases convert_result_cases c a ctx with ⟨val, h⟩ | h | h <;>
      rw [h] <;> simp only [bindOk, bindError]
    · cases hr : convertRest c ctx rest with
      | error e =>
        rw [hr] at ih
        simp only [hr, bindError]
        exact ih
      | ok vs => simp [hr, bindOk]
    · simp
    · simp

/-- The conversion loop never raises TooManyArguments. -/
theorem convLoop_ne_tooMany (ctx : Ctx) (ps : List Param) (args : List String) :
    convLoop ctx ps args ≠ .error .tooManyArguments := by
  induction ps generalizing args with
  | nil => simp [convLoop]
  | cons p ps ih =>
    cases args with
    | nil => simp [convLoop]
    | cons a rest =>
      simp only [convLoop]
      rcases skipEmpties_cases (a :: rest) with ⟨⟨tok, rem⟩, hsk⟩ | hsk <;>
        rw [hsk] <;> simp only [bindOk, bindError]
      · rcases convert_result_cases p.conv tok ctx with ⟨val, h⟩ | h | h <;>
          rw [h] <;> simp only [bindOk, bindError]
        · by_cases hv : p.variadic = true
          · simp only [hv, if_true]
            cases hr : convertRest p.conv ctx rem with
            | error e =>
              have hne := convertRest_ne_tooMany p.conv ctx rem
              rw [hr] at hne
              simp only [hr, bindError]
              exact hne
            | ok vs =>
              simp only [hr, bindOk]
              cases hl : convLoop ctx ps [] with
              | error e =>
                have hne := ih []
                rw [hl] at hne
                simp only [hl, bindError]
                exact hne
              | ok vs2 => simp [hl, bindOk]
          · simp only [Bool.not_eq_true] at hv
            simp only [hv, Bool.false_eq_true, if_false]
            cases hl : convLoop ctx ps rem with
            | error e =>
              have hne := ih rem
              rw [hl] at hne
              simp only [hl, bindError]
              exact hne
            | ok vs => simp [hl, bindOk]
        · simp
        · simp
      · simp

/-- An existing missing permission makes the first-missing search succeed. -/
theorem findMissing_isSome (required : List String) (has : String → Bool)
    (h : ∃ p ∈ required, has p = false) : ∃ q, findMissing required has = some q := by
  induction required with
  | nil => simp at h
  | cons p ps ih =>
    by_cases hp : has p = true
    · obtain ⟨r, hr, hf⟩ := h
      rcases List.mem_cons.mp hr with rfl | hr'
      · rw [hp] at hf; exact absurd hf (by simp)
      · obtain ⟨q, hq⟩ := ih ⟨r, hr', hf⟩
        exact ⟨q, by simp [findMissing, hp, hq]⟩
    · exact ⟨p, by simp [findMissing, hp]⟩

/-! Claim theorems. -/

/-- C7: the numeric converter returns an integer value for a token without a
decimal point and a floating-point (rational) value for a token with one,
and its only failure is WrongType; in particular "3" converts to the
integer 3, "3.5" to the floating value seven halves, and "abc" fails with
WrongType. -/
theorem C7_number_converter :
    numberConvert "3" ctxEx = .ok (.int 3) ∧
    numberConvert "3.5" ctxEx = .ok (.float (7 / 2 : ℚ)) ∧
    numberConvert "abc" ctxEx = .error .wrongType ∧
    ∀ (v : String) (ctx : Ctx),
      numberConvert v ctx = .error .wrongType ∨
      (∃ n : ℤ, v.data.contains '.' = false ∧ numberConvert v ctx = .ok (.int n)) ∨
      (∃ q : ℚ, v.data.contains '.' = true ∧ numberConvert v ctx = .ok (.float q)) := by
  refine ⟨by decide, by with_unfolding_all rfl, by decide, ?_⟩
  intro v ctx
  cases hc : v.data.contains '.' with
  | false =>
    cases hi : pyInt v with
    | none =>
      refine .inl ?_
      unfold numberConvert
      rw [hc, hi]
      rfl
    | some n =>
      refine .inr (.inl ⟨n, rfl, ?_⟩)
      unfold numberConvert
      rw [hc, hi]
      rfl
  | true =>
    cases hf : pyFloat v with
    | none =>
      refine .inl ?_
      unfold numberConvert
      rw [hc, hf]
      rfl
    | some q =>
      refine .inr (.inr ⟨q, rfl, ?_⟩)
      unfold numberConvert
      rw [hc, hf]
      rfl

/-- C9 (code bug): on a guild-less (direct-message) invocation context the
guild-member converter raises AttributeError on a well-formed mention token
instead of the conversion-failure kind WrongType, because Member.convert
dereferences ctx.guild without a None check. -/
theorem C9_member_converter_attribute_error :
    memberConvert "<@1>" ctxEx = .error .attributeError ∧
    Err.attributeError ≠ Err.wrongType := ⟨by decide, by decide⟩

/-- C2 (code bug): splitting the command line on single spaces keeps the
empty tokens produced by repeated spaces, and convert_arguments checks the
arity bounds against that raw token list before any empty token is dropped;
so a two-parameter command invoked with doubled spaces raises
TooManyArguments (five raw tokens against a maximum of two) instead of
binding the two non-empty arguments, and the handler is not invoked. -/
theorem C2_double_space_arity :
    pySplit ' ' "cmd  a   b" = ["cmd", "", "a", "", "", "b"] ∧
    real_command ["cmd"] [pStr, pStr] "cmd  a   b" ctxEx
      = some (.error .tooManyArguments, false) := ⟨by decide, by decide⟩

/-- C3 counterexample: a command declaring no parameters returns at once
from convert_arguments without any arity check, so a surplus token does not
raise TooManyArguments and the handler is invoked. -/
theorem C3_zero_params_counterexample :
    invoke_command [] ["a"] ctxEx = (.ok [], true) := by decide

/-- C3 (amended): for every command with at least one declared parameter
whose last parameter is not variadic, and every token list longer than the
parameter count, binding fails with TooManyArguments and the handler is
never invoked. -/
theorem C3_too_many_arguments (params : List Param) (args : List String) (ctx : Ctx)
    (hne : params ≠ []) (hvar : lastVariadic params = false)
    (hlen : params.length < args.length) :
    invoke_command params args ctx = (.error .tooManyArguments, false) := by
  have hne' : params.isEmpty = false := by
    cases params with
    | nil => exact absurd rfl hne
    | cons a l => rfl
  have h1 : ¬ args.length < params.length := by omega
  unfold invoke_command convert_arguments
  simp only [hne', Bool.false_eq_true, if_false, hvar, if_neg h1, if_pos hlen]

/-- Witness for the amended C3 theorem at a concrete command and tokens. -/
theorem C3_too_many_arguments_witness :
    ([pStr] ≠ [] ∧ lastVariadic [pStr] = false ∧ [pStr].length < ["a", "b"].length) ∧
    invoke_command [pStr] ["a", "b"] ctxEx = (.error .tooManyArguments, false) :=
  ⟨⟨by decide, by decide, by decide⟩,
    C3_too_many_arguments [pStr] ["a", "b"] ctxEx (by decide) (by decide) (by decide)⟩

/-- C10: a message authored by the bot itself never triggers command
resolution, whatever its content: the command table is not consulted and no
command is invoked. -/
theorem C10_self_message_guard (bot : BotM) (authorId : Nat) (content : String)
    (h : authorId = bot.userId) :
    on_message_command bot authorId content = ⟨false, none⟩ := by
  unfold on_message_command
  split
  · simp [h]
  · rfl

/-- Witness for the C10 theorem at a concrete bot and message. -/
theorem C10_self_message_guard_witness :
    7 = (⟨"!", 7, ["ping"]⟩ : BotM).userId ∧
    on_message_command ⟨"!", 7, ["ping"]⟩ 7 "!ping" = ⟨false, none⟩ :=
  ⟨rfl, C10_self_message_guard _ 7 "!ping" rfl⟩

/-- C1 counterexample: in the directly-awaited fan-out loop, a first plugin
whose handler raises suppresses delivery to the second plugin: only the
first handler runs and the exception escapes the dispatcher, so the two
handlers are not both invoked. -/
theorem C1_fanout_counterexample :
    dispatchLoop [Except.error Err.valueError, Except.ok ()]
      = ([true, false], some Err.valueError) := by decide

/-- C1 (amended): for the directly-awaited event kinds the per-plugin
fan-out is sequential in load order and not isolated: the handler of the
plugin at position i is invoked exactly when every earlier plugin's handler
returned without raising (a raising handler is itself invoked but suppresses
delivery to every later plugin). -/
theorem C1_sequential_fanout (hs : List (Except Err Unit)) (i : Nat)
    (hi : i < hs.length) :
    (dispatchLoop hs).1[i]? = some ((hs.take i).all isOk) := by
  induction hs generalizing i with
  | nil => simp at hi
  | cons h rest ih =>
    cases i with
    | zero =>
      cases h with
      | ok u => simp [dispatchLoop]
      | error e => simp [dispatchLoop]
    | succ i =>
      have hi' : i < rest.length := by simpa using hi
      cases h with
      | ok u => simp [dispatchLoop, isOk, ih i hi']
      | error e =>
        simp only [dispatchLoop, isOk, List.take_succ_cons, List.all_cons,
          Bool.false_and, List.getElem?_cons_succ, List.getElem?_map,
          List.getElem?_eq_getElem hi']
        rfl

/-- Witness for the amended C1 theorem at a concrete plugin list. -/
theorem C1_sequential_fanout_witness :
    2 < ([Except.ok (), Except.error Err.valueError, Except.ok ()] :
        List (Except Err Unit)).length ∧
    (dispatchLoop [Except.ok (), Except.error Err.valueError, Except.ok ()]).1[2]?
      = some false := by
  refine ⟨by decide, ?_⟩
  rw [C1_sequential_fanout [Except.ok (), Except.error Err.valueError, Except.ok ()] 2
    (by decide)]
  decide

/-- One-step unfolding of the start_bg_tasks loop. -/
theorem startLoop_succ (fuel i : Nat) (l : List BgItem) (launched : List Nat) :
    startLoop (fuel + 1) i l launched =
      match (l.drop i).head? with
      | some (.job j) => startLoop fuel (i + 1) (l ++ [.task j]) (launched ++ [j])
      | some (.task _) => .typeError launched l
      | none => .ok launched l := rfl

/-- Invariant of the start_bg_tasks loop: having consumed a first batch of
jobs (each one launched and mirrored by a task appended to the iterated
list), the loop goes on to launch the remaining jobs and then, unless no job
was declared at all, calls the first appended task, raising TypeError. -/
theorem startLoop_go (all rest consumed : List Nat) (hall : all = consumed ++ rest) :
    startLoop (rest.length + 1) consumed.length
        (all.map BgItem.job ++ consumed.map BgItem.task) consumed =
      if all.isEmpty then .ok [] []
      else .typeError all (all.map BgItem.job ++ all.map BgItem.task) := by
  induction rest generalizing consumed with
  | nil =>
    rw [List.append_nil] at hall
    rw [hall, startLoop_succ, List.drop_left' (by simp)]
    cases consumed with
    | nil => rfl
    | cons c cs => rfl
  | cons r0 rest' ih =>
    rw [startLoop_succ]
    have hdrop : (all.map BgItem.job ++ consumed.map BgItem.task).drop consumed.length
        = BgItem.job r0 :: (rest'.map BgItem.job ++ consumed.map BgItem.task) := by
      rw [List.drop_append_of_le_length (by simp [hall]), ← List.map_drop, hall,
        List.drop_left]
      rfl
    rw [hdrop]
    have hlist : (all.map BgItem.job ++ consumed.map BgItem.task) ++ [BgItem.task r0]
        = all.map BgItem.job ++ (consumed ++ [r0]).map BgItem.task := by
      simp
    have hlen : consumed.length + 1 = (consumed ++ [r0]).length := by simp
    have hall' : all = (consumed ++ [r0]) ++ rest' := by
      rw [hall]
      simp
    show startLoop (rest'.length + 1) (consumed.length + 1)
        ((all.map BgItem.job ++ consumed.map BgItem.task) ++ [BgItem.task r0])
        (consumed ++ [r0]) = _
    rw [hlist, hlen]
    exact ih (consumed ++ [r0]) hall'

/-- C4 (code bug): on the ready transition start_bg_tasks appends the newly
created tasks to the very bg_tasks list it is iterating (instead of
running_bg_tasks), so after launching every declared job exactly once the
iteration reaches the first appended task, calls it, and raises TypeError:
the launch procedure never completes normally when at least one job is
declared. -/
theorem C4_start_bg_tasks_type_error :
    (∀ js : List Nat, js ≠ [] →
      start_bg_tasks (js.map BgItem.job)
        = .typeError js (js.map BgItem.job ++ js.map BgItem.task)) ∧
    start_bg_tasks [] = .ok [] [] ∧
    start_bg_tasks [BgItem.job 0] = .typeError [0] [BgItem.job 0, BgItem.task 0] := by
  refine ⟨?_, by decide, by decide⟩
  intro js hne
  have h := startLoop_go js js [] rfl
  have hemp : js.isEmpty = false := by
    cases js with
    | nil => exact absurd rfl hne
    | cons a l => rfl
  rw [hemp] at h
  simp only [Bool.false_eq_true, if_false] at h
  unfold start_bg_tasks
  simpa using h

/-- Witness for the C4 theorem's quantified part at a one-job plugin. -/
theorem C4_start_bg_tasks_type_error_witness :
    ([5] : List Nat) ≠ [] ∧
    start_bg_tasks [BgItem.job 5] = .typeError [5] [BgItem.job 5, BgItem.task 5] :=
  ⟨by decide, C4_start_bg_tasks_type_error.1 [5] (by decide)⟩

/-- C5: a first invocation in guild g at time t1 that passes the cooldown
gate runs the handler (whatever its outcome h1, also a failure) and records
t1 for g; a second invocation in the same guild less than s seconds later
fails with the generic CommandError without running the handler and leaves
the state unchanged; the same second invocation issued from a different
guild g2 whose own gate interval has elapsed runs its handler. -/
theorem C5_cooldown_gate (s t1 t2 : ℤ) (g g2 : Nat) (st : CState)
    (h1 h3 : Except Err Unit)
    (hg : g2 ≠ g)
    (hpass1 : s ≤ t1 - st g)
    (hclose : t2 - t1 < s)
    (hpass2 : s ≤ t2 - st g2) :
    (cooldownGate s (baseHandler h1) st (ctxOf g) t1).1 = h1 ∧
    (cooldownGate s (baseHandler h1) st (ctxOf g) t1).2.2 = true ∧
    (cooldownGate s (baseHandler h1) st (ctxOf g) t1).2.1 g = t1 ∧
    (cooldownGate s (baseHandler h3)
        (cooldownGate s (baseHandler h1) st (ctxOf g) t1).2.1 (ctxOf g) t2
      = (.error .commandError,
          (cooldownGate s (baseHandler h1) st (ctxOf g) t1).2.1, false)) ∧
    (cooldownGate s (baseHandler h3)
        (cooldownGate s (baseHandler h1) st (ctxOf g) t1).2.1 (ctxOf g2) t2).1 = h3 ∧
    (cooldownGate s (baseHandler h3)
        (cooldownGate s (baseHandler h1) st (ctxOf g) t1).2.1 (ctxOf g2) t2).2.2
      = true := by
  have hnot1 : ¬ t1 - st g < s := by omega
  have hnot3 : ¬ t2 - st g2 < s := by omega
  simp [cooldownGate, baseHandler, ctxOf, hnot1, hclose, hg, hnot3]

/-- Witness for the C5 theorem at concrete times and guilds, with a failing
first handler (so the recorded timestamp is consumed by the failure too). -/
theorem C5_cooldown_gate_witness :
    ((2 : Nat) ≠ 1 ∧ (10 : ℤ) ≤ 100 - 0 ∧ (105 : ℤ) - 100 < 10 ∧
      (10 : ℤ) ≤ 105 - 0) ∧
    ((cooldownGate 10 (baseHandler (.error .wrongType)) (fun _ => 0) (ctxOf 1) 100).1
        = .error .wrongType ∧
      (cooldownGate 10 (baseHandler (.error .wrongType)) (fun _ => 0) (ctxOf 1) 100).2.2
        = true ∧
      (cooldownGate 10 (baseHandler (.error .wrongType)) (fun _ => 0) (ctxOf 1) 100).2.1 1
        = 100 ∧
      (cooldownGate 10 (baseHandler (.ok ()))
          (cooldownGate 10 (baseHandler (.error .wrongType)) (fun _ => 0) (ctxOf 1) 100).2.1
          (ctxOf 1) 105
        = (.error .commandError,
            (cooldownGate 10 (baseHandler (.error .wrongType)) (fun _ => 0)
              (ctxOf 1) 100).2.1, false)) ∧
      (cooldownGate 10 (baseHandler (.ok ()))
          (cooldownGate 10 (baseHandler (.error .wrongType)) (fun _ => 0) (ctxOf 1) 100).2.1
          (ctxOf 2) 105).1 = .ok () ∧
      (cooldownGate 10 (baseHandler (.ok ()))
          (cooldownGate 10 (baseHandler (.error .wrongType)) (fun _ => 0) (ctxOf 1) 100).2.1
          (ctxOf 2) 105).2.2 = true) :=
  ⟨⟨by decide, by decide, by decide, by decide⟩,
    C5_cooldown_gate 10 100 105 1 2 (fun _ => 0) (.error .wrongType) (.ok ())
      (by decide) (by decide) (by decide) (by decide)⟩

/-- C6: with the permission gate outside the cooldown gate, an author who
lacks one of the required permissions gets MissingPermission, the handler
does not run, and the cooldown state is returned unchanged: the rejected
call does not consume the cooldown. -/
theorem C6_permission_gate_preserves_cooldown (required : List String) (s t : ℤ)
    (st : CState) (ctx : Ctx) (res : Except Err Unit)
    (hmiss : ∃ p ∈ required, ctx.perms p = false) :
    permGate required (cooldownGate s (baseHandler res)) st ctx t
      = (.error .missingPermission, st, false) := by
  obtain ⟨q, hq⟩ := findMissing_isSome required ctx.perms hmiss
  simp [permGate, hq]

/-- Witness for the C6 theorem at a concrete required permission. -/
theorem C6_permission_gate_preserves_cooldown_witness :
    (∃ p ∈ ["kick_members"], (ctxOf 1).perms p = false) ∧
    permGate ["kick_members"] (cooldownGate 10 (baseHandler (.ok ())))
        (fun _ => 0) (ctxOf 1) 100
      = (.error .missingPermission, (fun _ => 0), false) :=
  ⟨⟨"kick_members", by simp [ctxOf]⟩,
    C6_permission_gate_preserves_cooldown ["kick_members"] 10 100 (fun _ => 0)
      (ctxOf 1) (.ok ()) ⟨"kick_members", by simp [ctxOf]⟩⟩

/-- C8 counterexample: the variadic maximum is the literal 999, not
unbounded: a variadic one-parameter command given 1000 tokens fails with
TooManyArguments. -/
theorem C8_thousand_tokens_counterexample :
    convert_arguments (List.replicate 1000 "a") [⟨Conv.string, true⟩] ctxEx
      = .error .tooManyArguments := by
  have h : (List.replicate 1000 "a").length = 1000 := List.length_replicate 1000 "a"
  unfold convert_arguments
  rw [h]
  norm_num [lastVariadic]

/-- The variadic flag of the last parameter of an appended singleton. -/
theorem lastVariadic_append (ps : List Param) (pv : Param) :
    lastVariadic (ps ++ [pv]) = pv.variadic := by
  unfold lastVariadic
  rw [List.getLast?_concat]

/-- Splitting the conversion loop of a command whose last parameter is
variadic: on a token list without empty tokens that covers the non-variadic
parameters, the loop converts one token per non-variadic parameter in order
and every remaining token with the variadic parameter's converter. -/
theorem convLoop_variadic_split (ctx : Ctx) (pv : Param) (hv : pv.variadic = true) :
    ∀ (ps : List Param) (args : List String), (∀ p ∈ ps, p.variadic = false) →
      (∀ a ∈ args, a ≠ "") → ps.length ≤ args.length →
      convLoop ctx (ps ++ [pv]) args =
        (do
          let vs ← specConvPos ctx ps (args.take ps.length)
          let ws ← convertRest pv.conv ctx (args.drop ps.length)
          pure (vs ++ ws)) := by
  intro ps
  induction ps with
  | nil =>
    intro args _ hclean _
    cases args with
    | nil => rfl
    | cons a rest =>
      have ha : a ≠ "" := hclean a (List.mem_cons_self a rest)
      simp only [List.nil_append, convLoop, skipEmpties, if_neg ha, bindOk, hv, if_true,
        List.length_nil, List.take_zero, List.drop_zero, specConvPos]
      cases hcv : pv.conv.convert a ctx with
      | error e => simp [convertRest, hcv, bindError, bindOk]
      | ok v =>
        cases hcr : convertRest pv.conv ctx rest with
        | error e => simp [convertRest, hcv, hcr, bindError, bindOk, convLoop]
        | ok ws => simp [convertRest, hcv, hcr, bindOk, convLoop]
  | cons p ps' ih =>
    intro args hps hclean hlen
    cases args with
    | nil => simp at hlen
    | cons a rest =>
      have ha : a ≠ "" := hclean a (List.mem_cons_self a rest)
      have hp : p.variadic = false := hps p (List.mem_cons_self p ps')
      have hlen' : ps'.length ≤ rest.length := by simpa using hlen
      have hclean' : ∀ x ∈ rest, x ≠ "" := fun x hx => hclean x (List.mem_cons_of_mem a hx)
      have hps' : ∀ q ∈ ps', q.variadic = false := fun q hq => hps q (List.mem_cons_of_mem p hq)
      simp only [List.cons_append, convLoop, skipEmpties, if_neg ha, bindOk, hp,
        Bool.false_eq_true, if_false, List.append_eq]
      rw [ih rest hps' hclean' hlen']
      simp only [List.length_cons, List.take_succ_cons, List.drop_succ_cons, specConvPos]
      cases hcv : p.conv.convert a ctx with
      | error e => simp [hcv, bindError, bindOk]
      | ok v =>
        cases h1 : specConvPos ctx ps' (rest.take ps'.length) with
        | error e => simp [hcv, h1, bindError, bindOk]
        | ok vs1 =>
          cases h2 : convertRest pv.conv ctx (rest.drop ps'.length) with
          | error e => simp [hcv, h1, h2, bindError, bindOk]
          | ok ws => simp [hcv, h1, h2, bindOk]

/-- C8 (amended): for a command whose last parameter is variadic the
accepted token count is capped at 999, not unbounded: with more than 999
tokens binding fails with TooManyArguments; with at most 999 tokens binding
never fails with TooManyArguments, and (on a token list without empty
tokens) converts one token per non-variadic parameter in order and every
token beyond the non-variadic parameters with the variadic parameter's
converter. -/
theorem C8_variadic_cap (ctx : Ctx) (ps : List Param) (pv : Param) (args : List String)
    (hps : ∀ p ∈ ps, p.variadic = false) (hv : pv.variadic = true)
    (hclean : ∀ a ∈ args, a ≠ "") (hmin : ps.length ≤ args.length) :
    (999 < args.length →
      convert_arguments args (ps ++ [pv]) ctx = .error .tooManyArguments) ∧
    (args.length ≤ 999 →
      convert_arguments args (ps ++ [pv]) ctx ≠ .error .tooManyArguments) ∧
    (args.length ≤ 999 →
      convert_arguments args (ps ++ [pv]) ctx =
        (do
          let vs ← specConvPos ctx ps (args.take ps.length)
          let ws ← convertRest pv.conv ctx (args.drop ps.length)
          pure (vs ++ ws))) := by
  have hne : (ps ++ [pv]).isEmpty = false := by simp
  have hlv : lastVariadic (ps ++ [pv]) = true := by rw [lastVariadic_append, hv]
  have hminArgs : (ps ++ [pv]).length - 1 = ps.length := by simp
  refine ⟨?_, ?_, ?_⟩
  · intro hbig
    unfold convert_arguments
    simp only [hne, Bool.false_eq_true, if_false, hlv, if_true, hminArgs]
    rw [if_neg (by omega), if_pos (by omega)]
  · intro hle
    unfold convert_arguments
    simp only [hne, Bool.false_eq_true, if_false, hlv, if_true, hminArgs]
    rw [if_neg (by omega), if_neg (by omega)]
    exact convLoop_ne_tooMany ctx (ps ++ [pv]) args
  · intro hle
    unfold convert_arguments
    simp only [hne, Bool.false_eq_true, if_false, hlv, if_true, hminArgs]
    rw [if_neg (by omega), if_neg (by omega)]
    exact convLoop_variadic_split ctx pv hv ps args hps hclean hmin

/-- Witness for the amended C8 theorem at a concrete variadic command. -/
theorem C8_variadic_cap_witness :
    ((⟨Conv.string, true⟩ : Param).variadic = true ∧ (∀ a ∈ ["a"], a ≠ "") ∧
      ([] : List Param).length ≤ ["a"].length) ∧
    (["a"].length ≤ 999 →
      convert_arguments ["a"] ([] ++ [⟨Conv.string, true⟩]) ctxEx
        ≠ .error .tooManyArguments) :=
  ⟨⟨by decide, by decide, by decide⟩,
    (C8_variadic_cap ctxEx [] ⟨Conv.string, true⟩ ["a"] (by simp) (by decide)
      (by decide) (by decide)).2.1⟩

end Outlet
